import Mathlib

/-!
Verification development for the LayerEdge auto-bot (src/main.js).

The file shallowly embeds the parts of the program the claims are about:
the JavaScript value discipline the operations rely on (truthiness, strict
comparison with null, property access that throws a TypeError on
null/undefined), the retry-capable request executor
`RequestHandler.makeRequest`, the wallet-session operations of
`LayerEdgeConnection`, and the orchestration loop in `run`.

Durations are modelled as exact rationals (milliseconds); a JavaScript
evaluation that can throw is modelled in `Except Unit`.
-/

namespace LayerEdge

/-! ### JavaScript value model -/

/-- A JSON-like JavaScript value, as it appears in `response.data`.
Numbers are modelled as integers (the program only inspects integral
fields such as `statusCode`). -/
inductive JSVal where
  | null
  | undefined
  | bool (b : Bool)
  | num (n : Int)
  | str (s : String)
  | obj (fields : List (String × JSVal))

/-- JavaScript truthiness: `null`, `undefined`, `false`, `0` and `""` are
falsy; every object is truthy. -/
def JSVal.truthy : JSVal → Bool
  | .null => false
  | .undefined => false
  | .bool b => b
  | .num n => n != 0
  | .str s => s != ""
  | .obj _ => true

/-- Property access `v.k`. On an object it yields the field (or
`undefined` when the key is missing); on `null`/`undefined` it throws a
TypeError; on any other primitive it yields `undefined`. -/
def JSVal.getField : JSVal → String → Except Unit JSVal
  | .obj fs, k => .ok ((fs.lookup k).getD .undefined)
  | .null, _ => .error ()
  | .undefined, _ => .error ()
  | _, _ => .ok .undefined

/-- Strict comparison `v === null`: true only for the `null` value
(`undefined !== null` holds in JavaScript). -/
def JSVal.isNull : JSVal → Bool
  | .null => true
  | _ => false

/-- Strict comparison `v === n` against a number literal. -/
def JSVal.eqNum : JSVal → Int → Bool
  | .num m, n => m == n
  | _, _ => false

/-- Strict comparison `v === true`: true only for the boolean `true`. -/
def JSVal.isTrue : JSVal → Bool
  | .bool true => true
  | _ => false

/-- Strict comparison `v === s` against a string literal. -/
def JSVal.eqStr : JSVal → String → Bool
  | .str t, s => t == s
  | _, _ => false

/-! ### Transport and retry executor (`RequestHandler.makeRequest`) -/

/-- An axios response object as seen by the callers: status code and
parsed body (`response.data`). -/
structure HttpResponse where
  status : Nat
  data : JSVal

/-- What the network does on one attempt: the server replies with some
status and body, or the request fails at the transport level (network
error / timeout), in which case axios rejects with no response status. -/
inductive RawOutcome where
  | response (status : Nat) (body : JSVal)
  | netError

/-- What one `await axios(config)` does: resolve with a response, or
reject with an error carrying `error.response?.status`. -/
inductive AttemptResult where
  | ok (resp : HttpResponse)
  | err (status : Option Nat)

/-- `validateStatus` from `LayerEdgeConnection.axiosConfig`: statuses
below 500 count as delivered. -/
def validateStatus (status : Nat) : Bool := status < 500

/-- The axios layer under `axiosConfig`: a server reply with status
accepted by `validateStatus` resolves; any other reply rejects with that
status; a transport failure rejects with no status. -/
def axiosAttempt (raw : Nat → RawOutcome) (i : Nat) : AttemptResult :=
  match raw i with
  | .response s b => if validateStatus s then .ok ⟨s, b⟩ else .err (some s)
  | .netError => .err none

/-- `delay(ms)` resolves after `ms * 1000` milliseconds (the argument is
in seconds despite its name); we return the slept duration in
milliseconds. -/
def delay (seconds : ℚ) : ℚ := seconds * 1000

/-- The observable behaviour of one `RequestHandler.makeRequest` call:
how many attempts were made, the sleeps (in milliseconds, in order)
between attempts, and the returned value (`none` models `null`). -/
structure ExecTrace where
  attempts : Nat
  waitsMs : List ℚ
  result : Option HttpResponse

/-- The `for (let i = 0; i < retries; i++)` loop of
`RequestHandler.makeRequest`, with `remaining = retries - i` attempts
left and `i` the current 0-based attempt index.  A 500-status error
sleeps `delay(backoffMs * 1.5^i / 1000)` unless this is the last
attempt (then `break` → `null`); any other error sleeps `delay(2)`
unless this is the last attempt (then `return null`); a resolved
response is returned immediately. -/
def makeRequestLoop (transport : Nat → AttemptResult) (backoffMs : ℚ) :
    Nat → Nat → ExecTrace
  | 0, _ => ⟨0, [], none⟩
  | r + 1, i =>
    match transport i with
    | .ok resp => ⟨1, [], some resp⟩
    | .err status =>
      if status = some 500 then
        if r = 0 then ⟨1, [], none⟩
        else
          let rest := makeRequestLoop transport backoffMs r (i + 1)
          ⟨rest.attempts + 1,
           delay (backoffMs * (3 / 2 : ℚ) ^ i / 1000) :: rest.waitsMs,
           rest.result⟩
      else
        if r = 0 then ⟨1, [], none⟩
        else
          let rest := makeRequestLoop transport backoffMs r (i + 1)
          ⟨rest.attempts + 1, delay 2 :: rest.waitsMs, rest.result⟩

/-- `RequestHandler.makeRequest(config, retries, backoffMs)` (defaults:
`retries = 30`, `backoffMs = 2000`). -/
def makeRequest (transport : Nat → AttemptResult) (retries : Nat)
    (backoffMs : ℚ) : ExecTrace :=
  makeRequestLoop transport backoffMs retries 0

/-! ### Wallet-session operations (`LayerEdgeConnection`)

Each operation is modelled as a function of the executor outcome
(`none` models the `null` returned on exhausted retries).  The value is
computed in `Except Unit Bool`: `.error ()` models a thrown TypeError
escaping the operation (none of these bodies has a try/catch except
`dailyCheckIn`). -/

/-- `checkInvite`: `response && response.data && response.data.data.valid === true`. -/
def checkInviteEval (resp : Option HttpResponse) : Except Unit Bool :=
  match resp with
  | none => .ok false
  | some r =>
    if r.data.truthy then
      match r.data.getField "data" with
      | .error e => .error e
      | .ok d =>
        match d.getField "valid" with
        | .error e => .error e
        | .ok v => .ok v.isTrue
    else .ok false

/-- `registerWallet`: success iff `response && response.data`. -/
def registerWalletEval (resp : Option HttpResponse) : Except Unit Bool :=
  match resp with
  | none => .ok false
  | some r => .ok r.data.truthy

/-- `connectNode`: `response && response.data && response.data.message === "node action executed successfully"`. -/
def connectNodeEval (resp : Option HttpResponse) : Except Unit Bool :=
  match resp with
  | none => .ok false
  | some r =>
    if r.data.truthy then
      match r.data.getField "message" with
      | .error e => .error e
      | .ok m => .ok (m.eqStr "node action executed successfully")
    else .ok false

/-- `stopNode`: success iff `response && response.data`. -/
def stopNodeEval (resp : Option HttpResponse) : Except Unit Bool :=
  match resp with
  | none => .ok false
  | some r => .ok r.data.truthy

/-- `checkNodeStatus`:
`response && response.data && response.data.data.startTimestamp !== null`. -/
def checkNodeStatusEval (resp : Option HttpResponse) : Except Unit Bool :=
  match resp with
  | none => .ok false
  | some r =>
    if r.data.truthy then
      match r.data.getField "data" with
      | .error e => .error e
      | .ok d =>
        match d.getField "startTimestamp" with
        | .error e => .error e
        | .ok ts => .ok (!ts.isNull)
    else .ok false

/-- `checkNodePoints`: success iff `response && response.data` (the
logged `response.data.data?.nodePoints || 0` is optional-chained and
cannot throw). -/
def checkNodePointsEval (resp : Option HttpResponse) : Except Unit Bool :=
  match resp with
  | none => .ok false
  | some r => .ok r.data.truthy

/-- The body of `dailyCheckIn` inside its try-block: on a truthy body,
if `response.data.statusCode && response.data.statusCode === 405` the
code calls `response.data.message.match(...)` — a TypeError when
`message` is not a string — and returns true either way; otherwise it
returns true; with no truthy body it returns false. -/
def dailyCheckInEval (resp : Option HttpResponse) : Except Unit Bool :=
  match resp with
  | none => .ok false
  | some r =>
    if r.data.truthy then
      match r.data.getField "statusCode" with
      | .error e => .error e
      | .ok sc =>
        if sc.truthy && sc.eqNum 405 then
          match r.data.getField "message" with
          | .error e => .error e
          | .ok (.str _) => .ok true
          | .ok _ => .error ()
        else .ok true
    else .ok false

/-- `dailyCheckIn` with its try/catch: a thrown error is caught and
converted to `false`. -/
def dailyCheckInRun (resp : Option HttpResponse) : Bool :=
  match dailyCheckInEval resp with
  | .ok b => b
  | .error _ => false

/-! ### Constructor (`LayerEdgeConnection.constructor`) and signed messages -/

/-- An ethers wallet: the collaborator only exposes the address and key
to the rest of the program. -/
structure EthWallet where
  address : String
  privateKey : String

/-- The fields of a `LayerEdgeConnection` the claims inspect. -/
structure Connection where
  refCode : String
  proxy : Option String
  retryCount : Nat
  wallet : EthWallet

/-- `LayerEdgeConnection` constructor: `privateKey ? new Wallet(privateKey)
: Wallet.createRandom()`.  `walletFromKey` stands for the ethers
`new Wallet(key)` derivation and `freshWallet` for the result of
`Wallet.createRandom()`; a falsy private key (null/undefined/empty
string) selects the fresh random wallet.  `refCode` defaults to
"knYyWnsE" and `retryCount` is fixed at 30 in the source. -/
def mkConnection (walletFromKey : String → EthWallet) (freshWallet : EthWallet)
    (proxy : Option String) (privateKey : Option String) (refCode : String) :
    Connection :=
  { refCode := refCode
    proxy := proxy
    retryCount := 30
    wallet :=
      match privateKey with
      | some k => if k == "" then freshWallet else walletFromKey k
      | none => freshWallet }

/-- The message string signed by `connectNode`. -/
def connectNodeMessage (w : EthWallet) (timestamp : Nat) : String :=
  "Node activation request for " ++ w.address ++ " at " ++ toString timestamp

/-- The message string signed by `stopNode`. -/
def stopNodeMessage (w : EthWallet) (timestamp : Nat) : String :=
  "Node deactivation request for " ++ w.address ++ " at " ++ toString timestamp

/-- The message string signed by `dailyCheckIn`. -/
def dailyCheckInMessage (w : EthWallet) (timestamp : Nat) : String :=
  "I am claiming my daily node point for " ++ w.address ++ " at " ++
    toString timestamp

/-! ### Orchestration loop (`run`) -/

/-- One entry of `wallets.json`. -/
structure WalletEntry where
  address : String
  privateKey : Option String

/-- `proxies[i % proxies.length] || null` from the wallet loop: the
proxy assigned to wallet index `i` in every cycle.  With an empty list,
`i % 0` is `NaN` in JavaScript and the lookup yields `undefined`, hence
`null`; a falsy (empty-string) entry also becomes `null`. -/
def selectProxy (proxies : List String) (i : Nat) : Option String :=
  match proxies.get? (i % proxies.length) with
  | some p => if p == "" then none else some p
  | none => none

/-- What `run` does after loading its configuration and before any HTTP
request: either the process exits with a code (having made the recorded
number of HTTP calls), or control enters the infinite wallet loop (with
the no-proxy warning flag recorded). -/
inductive StartupOutcome where
  | exitProcess (code : Nat) (httpCallsMade : Nat)
  | enterLoop (warnedNoProxy : Bool)

/-- The setup portion of `run` (after reading proxy.txt and
wallets.json has produced the two lists): warn when no proxies were
loaded, then throw a configuration error when the wallet list is
empty; otherwise fall through to the `while (true)` loop.  No HTTP
request occurs anywhere in this region of the source. -/
def runSetup (proxies : List String) (wallets : List WalletEntry) :
    Except String (List WalletEntry × List String × Bool) :=
  let warned := proxies.isEmpty
  if wallets.length = 0 then .error "未配置钱包"
  else .ok (wallets, proxies, warned)

/-- `run` up to its first HTTP call: the outer catch turns the setup
throw into `process.exit(1)` (no HTTP call was made before it); a
successful setup enters the orchestration loop. -/
def runStartup (proxies : List String) (wallets : List WalletEntry) :
    StartupOutcome :=
  match runSetup proxies wallets with
  | .error _ => .exitProcess 1 0
  | .ok (_, _, warned) => .enterLoop warned

/-- The five per-wallet operations invoked by the inner loop body. -/
inductive Step where
  | dailyCheckIn
  | checkNodeStatus
  | stopNode
  | connectNode
  | checkNodePoints
deriving DecidableEq, Repr

/-- The inner per-wallet sequence of `run`, as the ordered list of
operations invoked, given the boolean result of each operation: daily
check-in, node-status check, `stopNode` only when the status check
returned true, then `connectNode` and `checkNodePoints`
unconditionally. -/
def processWalletSteps (opResult : Step → Bool) : List Step :=
  let isRunning := opResult Step.checkNodeStatus
  [Step.dailyCheckIn, Step.checkNodeStatus] ++
    (if isRunning then [Step.stopNode] else []) ++
    [Step.connectNode, Step.checkNodePoints]

/-! ### Theorems about the retry executor -/

/-- A delivered response is returned at once, after a single attempt.
-/
lemma makeRequestLoop_ok (transport : Nat → AttemptResult) (backoffMs : ℚ)
    (r i : Nat) (resp : HttpResponse) (htr : transport i = .ok resp) :
    makeRequestLoop transport backoffMs (r + 1) i = ⟨1, [], some resp⟩ := by
  simp only [makeRequestLoop, htr]

/-- An error on the last allowed attempt yields `null` with no further
sleep, on both branches of the status test. -/
lemma makeRequestLoop_last_err (transport : Nat → AttemptResult)
    (backoffMs : ℚ) (i : Nat) (s : Option Nat)
    (htr : transport i = .err s) :
    makeRequestLoop transport backoffMs 1 i = ⟨1, [], none⟩ := by
  by_cases h : s = some 500 <;> simp [makeRequestLoop, htr, h]

/-- A 500-status error before the last attempt sleeps the exponential
backoff and continues with the next attempt. -/
lemma makeRequestLoop_succ_500 (transport : Nat → AttemptResult)
    (backoffMs : ℚ) (r i : Nat) (htr : transport i = .err (some 500))
    (hr : r ≠ 0) :
    makeRequestLoop transport backoffMs (r + 1) i =
      ⟨(makeRequestLoop transport backoffMs r (i + 1)).attempts + 1,
       delay (backoffMs * (3 / 2 : ℚ) ^ i / 1000) ::
         (makeRequestLoop transport backoffMs r (i + 1)).waitsMs,
       (makeRequestLoop transport backoffMs r (i + 1)).result⟩ := by
  simp [makeRequestLoop, htr, hr]

/-- A non-500 error before the last attempt sleeps `delay(2)` and
continues with the next attempt. -/
lemma makeRequestLoop_succ_other (transport : Nat → AttemptResult)
    (backoffMs : ℚ) (r i : Nat) (s : Option Nat)
    (htr : transport i = .err s) (hs : s ≠ some 500) (hr : r ≠ 0) :
    makeRequestLoop transport backoffMs (r + 1) i =
      ⟨(makeRequestLoop transport backoffMs r (i + 1)).attempts + 1,
       delay 2 :: (makeRequestLoop transport backoffMs r (i + 1)).waitsMs,
       (makeRequestLoop transport backoffMs r (i + 1)).result⟩ := by
  simp [makeRequestLoop, htr, hs, hr]

/-- With a transport that fails with status 500 on every attempt, the
loop starting at index `i` with `r + 1` attempts left makes all of them,
sleeping the exponential schedule, and yields `null`. -/
lemma makeRequestLoop_all500 (transport : Nat → AttemptResult) (backoffMs : ℚ)
    (h : ∀ i, transport i = .err (some 500)) :
    ∀ r i, makeRequestLoop transport backoffMs (r + 1) i =
      ⟨r + 1, (List.range r).map (fun k => backoffMs * (3 / 2 : ℚ) ^ (i + k)),
        none⟩ := by
  intro r
  induction r with
  | zero =>
    intro i
    simp [makeRequestLoop_last_err transport backoffMs i _ (h i)]
  | succ n ih =>
    intro i
    have hwait : delay (backoffMs * (3 / 2 : ℚ) ^ i / 1000) =
        backoffMs * (3 / 2 : ℚ) ^ i := by
      unfold delay
      rw [div_mul_cancel₀ _ (by norm_num : (1000 : ℚ) ≠ 0)]
    have hmap : (List.range (n + 1)).map
          (fun k => backoffMs * (3 / 2 : ℚ) ^ (i + k)) =
        backoffMs * (3 / 2 : ℚ) ^ i ::
          (List.range n).map
            (fun k => backoffMs * (3 / 2 : ℚ) ^ (i + 1 + k)) := by
      rw [List.range_succ_eq_map, List.map_cons, List.map_map]
      congr 1
      apply List.map_congr_left
      intro a _
      show backoffMs * (3 / 2 : ℚ) ^ (i + Nat.succ a) =
        backoffMs * (3 / 2 : ℚ) ^ (i + 1 + a)
      rw [show i + Nat.succ a = i + 1 + a by omega]
    rw [makeRequestLoop_succ_500 transport backoffMs (n + 1) i (h i)
        (Nat.succ_ne_zero n), ih (i + 1), hmap]
    simp [hwait]

/-- Claim C1: for every `maxAttempts = N ≥ 1` and a transport whose
every attempt raises an error with HTTP status exactly 500,
`RequestHandler.makeRequest` makes exactly `N` attempts and returns
failure, and the wait after the k-th attempt (1-based, `k < N`) is
`backoffMs * 1.5 ^ (k - 1)` milliseconds. -/
theorem makeRequest_all500_retry_schedule (N : Nat) (backoffMs : ℚ)
    (transport : Nat → AttemptResult) (hN : 1 ≤ N)
    (h500 : ∀ i, transport i = .err (some 500)) :
    (makeRequest transport N backoffMs).result = none ∧
    (makeRequest transport N backoffMs).attempts = N ∧
    (makeRequest transport N backoffMs).waitsMs =
      (List.range (N - 1)).map (fun k => backoffMs * (3 / 2 : ℚ) ^ k) := by
  obtain ⟨r, rfl⟩ : ∃ r, N = r + 1 := ⟨N - 1, by omega⟩
  unfold makeRequest
  rw [makeRequestLoop_all500 transport backoffMs h500 r 0]
  simp

/-- Witness for C1 at `N = 3`, `backoffMs = 2000`: three attempts, two
waits of 2000 ms and 3000 ms, and failure. -/
theorem makeRequest_all500_retry_schedule_witness :
    (makeRequest (fun _ => AttemptResult.err (some 500)) 3 2000).result =
        none ∧
    (makeRequest (fun _ => AttemptResult.err (some 500)) 3 2000).attempts =
        3 ∧
    (makeRequest (fun _ => AttemptResult.err (some 500)) 3 2000).waitsMs =
      (List.range 2).map (fun k => (2000 : ℚ) * (3 / 2 : ℚ) ^ k) :=
  makeRequest_all500_retry_schedule 3 2000 _ (by norm_num) (fun _ => rfl)

/-- With a transport that raises a non-500 error on every attempt, the
loop starting at index `i` with `r + 1` attempts left makes all of
them, sleeping a fixed 2000 ms between consecutive attempts, and
yields `null`. -/
lemma makeRequestLoop_non500 (transport : Nat → AttemptResult)
    (backoffMs : ℚ)
    (h : ∀ i, ∃ s, transport i = .err s ∧ s ≠ some 500) :
    ∀ r i, makeRequestLoop transport backoffMs (r + 1) i =
      ⟨r + 1, List.replicate r 2000, none⟩ := by
  intro r
  induction r with
  | zero =>
    intro i
    obtain ⟨s, hs, _⟩ := h i
    simp [makeRequestLoop_last_err transport backoffMs i s hs]
  | succ n ih =>
    intro i
    obtain ⟨s, hs, hne⟩ := h i
    have hdelay : delay 2 = (2000 : ℚ) := by norm_num [delay]
    rw [makeRequestLoop_succ_other transport backoffMs (n + 1) i s hs hne
        (Nat.succ_ne_zero n), ih (i + 1)]
    simp [hdelay, List.replicate_succ]

/-- Claim C2: for every `maxAttempts = N ≥ 1` and a transport whose
every attempt raises an error whose HTTP status is not exactly 500
(network failure, timeout, or another status), the executor makes
exactly `N` attempts, sleeps a fixed 2000 ms between consecutive
attempts, and returns failure. -/
theorem makeRequest_non500_fixed_backoff (N : Nat) (backoffMs : ℚ)
    (transport : Nat → AttemptResult) (hN : 1 ≤ N)
    (h : ∀ i, ∃ s, transport i = .err s ∧ s ≠ some 500) :
    (makeRequest transport N backoffMs).result = none ∧
    (makeRequest transport N backoffMs).attempts = N ∧
    (makeRequest transport N backoffMs).waitsMs =
      List.replicate (N - 1) (2000 : ℚ) := by
  obtain ⟨r, rfl⟩ : ∃ r, N = r + 1 := ⟨N - 1, by omega⟩
  unfold makeRequest
  rw [makeRequestLoop_non500 transport backoffMs h r 0]
  simp

/-- Witness for C2 at `N = 3` with a transport that always fails at the
network level: three attempts, two 2000 ms waits, failure. -/
theorem makeRequest_non500_fixed_backoff_witness :
    (makeRequest (fun _ => AttemptResult.err none) 3 2000).result = none ∧
    (makeRequest (fun _ => AttemptResult.err none) 3 2000).attempts = 3 ∧
    (makeRequest (fun _ => AttemptResult.err none) 3 2000).waitsMs =
      List.replicate 2 (2000 : ℚ) :=
  makeRequest_non500_fixed_backoff 3 2000 _ (by norm_num)
    (fun _ => ⟨none, rfl, by simp⟩)

/-- The outcome discipline of the retry loop at `r` attempts left and
current index `i`: failure is only reported once all `r` attempts are
used, and a returned response comes from the first delivering attempt,
immediately. -/
def LoopSpec (transport : Nat → AttemptResult) (t : ExecTrace)
    (r i : Nat) : Prop :=
  (t.result = none → t.attempts = r) ∧
  (∀ resp, t.result = some resp →
    ∃ k, k < r ∧ t.attempts = k + 1 ∧ transport (i + k) = .ok resp ∧
      ∀ j, j < k → ∀ resp2, transport (i + j) ≠ .ok resp2)

/-- Lifting `LoopSpec` over one failed attempt at index `i`. -/
lemma LoopSpec.lift (transport : Nat → AttemptResult) (backoffMs : ℚ)
    (i m : Nat) (w : ℚ)
    (hi : ∀ resp2, transport i ≠ .ok resp2)
    (hspec : LoopSpec transport
      (makeRequestLoop transport backoffMs (m + 1) (i + 1)) (m + 1) (i + 1)) :
    LoopSpec transport
      ⟨(makeRequestLoop transport backoffMs (m + 1) (i + 1)).attempts + 1,
        w :: (makeRequestLoop transport backoffMs (m + 1) (i + 1)).waitsMs,
        (makeRequestLoop transport backoffMs (m + 1) (i + 1)).result⟩
      (m + 2) i := by
  obtain ⟨hnone, hsome⟩ := hspec
  constructor
  · intro hres
    have := hnone hres
    simp only at hres ⊢
    omega
  · intro resp hres
    obtain ⟨k, hk, ha, hok, herr⟩ := hsome resp hres
    refine ⟨k + 1, by omega, by simp only; omega, ?_, ?_⟩
    · rw [show i + (k + 1) = i + 1 + k by omega]
      exact hok
    · intro j hj resp2
      cases j with
      | zero =>
        rw [Nat.add_zero]
        exact hi resp2
      | succ j =>
        rw [show i + (j + 1) = i + 1 + j by omega]
        exact herr j (by omega) resp2

/-- The retry loop satisfies its outcome discipline at every starting
point. -/
lemma makeRequestLoop_outcome (transport : Nat → AttemptResult)
    (backoffMs : ℚ) :
    ∀ r i, LoopSpec transport (makeRequestLoop transport backoffMs r i)
      r i := by
  intro r
  induction r with
  | zero =>
    intro i
    constructor
    · intro _
      rfl
    · intro resp hres
      simp [makeRequestLoop] at hres
  | succ n ih =>
    intro i
    cases htr : transport i with
    | ok resp0 =>
      rw [makeRequestLoop_ok transport backoffMs n i resp0 htr]
      constructor
      · intro hres
        simp at hres
      · intro resp hres
        simp only [Option.some.injEq] at hres
        refine ⟨0, by omega, rfl, ?_, ?_⟩
        · rw [Nat.add_zero, htr, hres]
        · intro j hj
          omega
    | err s =>
      have hi : ∀ resp2, transport i ≠ .ok resp2 := by
        intro resp2 hc
        rw [htr] at hc
        cases hc
      cases hn : n with
      | zero =>
        rw [makeRequestLoop_last_err transport backoffMs i s htr]
        constructor
        · intro _
          rfl
        · intro resp hres
          simp at hres
      | succ m =>
        subst hn
        by_cases hs : s = some 500
        · subst hs
          rw [makeRequestLoop_succ_500 transport backoffMs (m + 1) i htr
              (Nat.succ_ne_zero m)]
          exact LoopSpec.lift transport backoffMs i m _ hi (ih (i + 1))
        · rw [makeRequestLoop_succ_other transport backoffMs (m + 1) i s htr
              hs (Nat.succ_ne_zero m)]
          exact LoopSpec.lift transport backoffMs i m _ hi (ih (i + 1))

/-- Under `axiosConfig`, a delivered attempt always carries a status
below 500. -/
lemma axiosAttempt_ok_status (raw : Nat → RawOutcome) (k : Nat)
    (resp : HttpResponse) (h : axiosAttempt raw k = .ok resp) :
    resp.status < 500 := by
  cases hraw : raw k with
  | response s b =>
    simp only [axiosAttempt, hraw] at h
    by_cases hv : validateStatus s = true
    · rw [if_pos hv] at h
      injection h with h2
      subst h2
      simpa [validateStatus] using hv
    · rw [if_neg hv] at h
      exact AttemptResult.noConfusion h
  | netError =>
    simp only [axiosAttempt, hraw] at h
    exact AttemptResult.noConfusion h

/-- Claim C3: for every configuration and transport behaviour, the
executor returns an outcome only when either some attempt delivered a
response (necessarily with status below 500, and that response is
returned immediately at the first such attempt), or the full budget of
`retries` attempts has been used, in which case failure is returned;
no outcome is returned earlier. -/
theorem makeRequest_outcome_invariant (raw : Nat → RawOutcome)
    (retries : Nat) (backoffMs : ℚ) :
    ((makeRequest (axiosAttempt raw) retries backoffMs).result = none →
      (makeRequest (axiosAttempt raw) retries backoffMs).attempts =
        retries) ∧
    (∀ resp,
      (makeRequest (axiosAttempt raw) retries backoffMs).result =
          some resp →
      resp.status < 500 ∧
      ∃ k, k < retries ∧
        (makeRequest (axiosAttempt raw) retries backoffMs).attempts =
          k + 1 ∧
        axiosAttempt raw k = .ok resp ∧
        ∀ j, j < k → ∀ resp2, axiosAttempt raw j ≠ .ok resp2) := by
  obtain ⟨hnone, hsome⟩ :=
    makeRequestLoop_outcome (axiosAttempt raw) backoffMs retries 0
  constructor
  · exact hnone
  · intro resp hres
    obtain ⟨k, hk, ha, hok, herr⟩ := hsome resp hres
    rw [Nat.zero_add] at hok
    refine ⟨axiosAttempt_ok_status raw k resp hok, k, hk, ha, hok, ?_⟩
    intro j hj resp2
    have := herr j hj resp2
    rwa [Nat.zero_add] at this

/-- Witness for C3: a transport delivering a 404 on the first attempt
is returned immediately after one attempt, and status 404 is below
500. -/
theorem makeRequest_outcome_invariant_witness :
    (⟨404, JSVal.null⟩ : HttpResponse).status < 500 ∧
    ∃ k, k < 3 ∧
      (makeRequest
          (axiosAttempt (fun _ => RawOutcome.response 404 JSVal.null)) 3
          2000).attempts = k + 1 ∧
      axiosAttempt (fun _ => RawOutcome.response 404 JSVal.null) k =
        .ok ⟨404, JSVal.null⟩ ∧
      ∀ j, j < k → ∀ resp2,
        axiosAttempt (fun _ => RawOutcome.response 404 JSVal.null) j ≠
          .ok resp2 :=
  (makeRequest_outcome_invariant
      (fun _ => RawOutcome.response 404 JSVal.null) 3 2000).2
    ⟨404, JSVal.null⟩ rfl

/-! ### Theorems about the wallet-session operations -/

/-- Property access on a truthy value never throws. -/
lemma JSVal.getField_ok_of_truthy (v : JSVal) (k : String)
    (h : v.truthy = true) : ∃ w, v.getField k = .ok w := by
  cases v with
  | null => simp [JSVal.truthy] at h
  | undefined => simp [JSVal.truthy] at h
  | bool b => exact ⟨.undefined, rfl⟩
  | num n => exact ⟨.undefined, rfl⟩
  | str s => exact ⟨.undefined, rfl⟩
  | obj fs => exact ⟨_, rfl⟩

/-- The evaluation of `response.data.data.startTimestamp` on a body. -/
def nestedStartTimestamp (body : JSVal) : Except Unit JSVal :=
  match body.getField "data" with
  | .error e => .error e
  | .ok d => d.getField "startTimestamp"

/-- Counterexample to claim C4 as stated: on a delivered response whose
`data.data` object exists but lacks the `startTimestamp` key (so the
nested field is absent), `checkNodeStatus` returns true, not false,
because `undefined !== null` holds under strict comparison. -/
theorem checkNodeStatus_absent_field_cex :
    checkNodeStatusEval
        (some ⟨200, JSVal.obj [("data", JSVal.obj [])]⟩) = .ok true ∧
    checkNodeStatusEval
        (some ⟨200, JSVal.obj [("data", JSVal.obj [])]⟩) ≠ .ok false := by
  refine ⟨rfl, fun h => ?_⟩
  rw [show checkNodeStatusEval
      (some ⟨200, JSVal.obj [("data", JSVal.obj [])]⟩) =
      Except.ok true from rfl] at h
  injection h with h2
  exact Bool.noConfusion h2

/-- Claim C4 (amended): `checkNodeStatus` returns true iff a response is
delivered with a truthy body whose `data.startTimestamp` evaluates
without throwing to a value that is not strictly `null` — in particular
an absent field (`undefined`) also yields true; it returns false iff
the call fails outright, the body is falsy, or the field is exactly
`null`; when `body.data` itself is `null` or absent the strict
comparison throws a TypeError instead of returning. -/
theorem checkNodeStatus_strict_null (resp : Option HttpResponse) :
    (checkNodeStatusEval resp = .ok true ↔
      ∃ r ts, resp = some r ∧ r.data.truthy = true ∧
        nestedStartTimestamp r.data = .ok ts ∧ ts.isNull = false) ∧
    (checkNodeStatusEval resp = .ok false ↔
      resp = none ∨
      ∃ r, resp = some r ∧
        (r.data.truthy = false ∨
          nestedStartTimestamp r.data = .ok JSVal.null)) := by
  cases resp with
  | none =>
    constructor
    · simp [checkNodeStatusEval]
    · simp [checkNodeStatusEval]
  | some r =>
    by_cases ht : r.data.truthy = true
    · cases hd : r.data.getField "data" with
      | error e =>
        cases e
        constructor
        · simp [checkNodeStatusEval, ht, hd, nestedStartTimestamp]
        · simp [checkNodeStatusEval, ht, hd, nestedStartTimestamp]
      | ok d =>
        cases hts : d.getField "startTimestamp" with
        | error e =>
          cases e
          constructor
          · simp [checkNodeStatusEval, ht, hd, hts, nestedStartTimestamp]
          · simp [checkNodeStatusEval, ht, hd, hts, nestedStartTimestamp]
        | ok ts =>
          have heval : checkNodeStatusEval (some r) = .ok (!ts.isNull) := by
            simp [checkNodeStatusEval, ht, hd, hts]
          have hnest : nestedStartTimestamp r.data = .ok ts := by
            simp [nestedStartTimestamp, hd, hts]
          constructor
          · rw [heval]
            constructor
            · intro h
              injection h with h2
              exact ⟨r, ts, rfl, ht, hnest, by simpa using h2⟩
            · rintro ⟨r2, ts2, hr2, -, hn2, hnull2⟩
              injection hr2 with hr2
              subst hr2
              rw [hnest] at hn2
              injection hn2 with hn2
              subst hn2
              simp [hnull2]
          · rw [heval]
            constructor
            · intro h
              injection h with h2
              refine Or.inr ⟨r, rfl, Or.inr ?_⟩
              have hnull : ts.isNull = true := by simpa using h2
              have : ts = JSVal.null := by
                cases ts <;> simp [JSVal.isNull] at hnull ⊢
              rw [← this]
              exact hnest
            · rintro (hc | ⟨r2, hr2, hc⟩)
              · exact Option.noConfusion hc
              · injection hr2 with hr2
                subst hr2
                rcases hc with hc | hc
                · rw [ht] at hc
                  exact Bool.noConfusion hc
                · rw [hnest] at hc
                  injection hc with hc
                  subst hc
                  rfl
    · have ht2 : r.data.truthy = false := by
        simpa using ht
      constructor
      · constructor
        · intro h
          simp [checkNodeStatusEval, ht2] at h
        · rintro ⟨r2, ts2, hr2, htr2, -, -⟩
          injection hr2 with hr2
          subst hr2
          rw [ht2] at htr2
          exact Bool.noConfusion htr2
      · constructor
        · intro _
          exact Or.inr ⟨r, rfl, Or.inl ht2⟩
        · intro _
          simp [checkNodeStatusEval, ht2]

/-- Witness for the amended C4 theorem: a failed call yields false. -/
theorem checkNodeStatus_strict_null_witness :
    checkNodeStatusEval none = .ok false :=
  (checkNodeStatus_strict_null none).2.mpr (Or.inl rfl)

/-- Counterexample to claim C5 as stated: `checkInvite` does not catch
internal errors.  On a delivered response whose truthy body lacks the
nested `data` object, evaluating `response.data.data.valid` throws a
TypeError that escapes to the caller instead of yielding false. -/
theorem checkInvite_throws_cex :
    checkInviteEval (some ⟨200, JSVal.obj []⟩) = .error () ∧
    ∀ b, checkInviteEval (some ⟨200, JSVal.obj []⟩) ≠ .ok b := by
  refine ⟨rfl, fun b h => ?_⟩
  rw [show checkInviteEval (some ⟨200, JSVal.obj []⟩) =
      Except.error () from rfl] at h
  exact Except.noConfusion h

/-- Claim C5 (amended): `registerWallet`, `stopNode`, `connectNode`,
`checkNodePoints` and `dailyCheckIn` return a boolean for every
executor outcome and never throw (only `dailyCheckIn` has a try/catch,
which converts any thrown error to false; the other four cannot
raise); but `checkInvite` and `checkNodeStatus` can throw a TypeError
to their caller when a delivered truthy body lacks the nested `data`
object they dereference. -/
theorem walletOps_throw_behavior :
    (∀ resp, ∃ b, registerWalletEval resp = .ok b) ∧
    (∀ resp, ∃ b, stopNodeEval resp = .ok b) ∧
    (∀ resp, ∃ b, connectNodeEval resp = .ok b) ∧
    (∀ resp, ∃ b, checkNodePointsEval resp = .ok b) ∧
    (∀ resp, dailyCheckInEval resp = .error () →
      dailyCheckInRun resp = false) ∧
    (∃ resp, checkInviteEval resp = .error ()) ∧
    (∃ resp, checkNodeStatusEval resp = .error ()) := by
  refine ⟨?_, ?_, ?_, ?_, ?_, ?_, ?_⟩
  · intro resp
    cases resp with
    | none => exact ⟨false, rfl⟩
    | some r => exact ⟨r.data.truthy, rfl⟩
  · intro resp
    cases resp with
    | none => exact ⟨false, rfl⟩
    | some r => exact ⟨r.data.truthy, rfl⟩
  · intro resp
    cases resp with
    | none => exact ⟨false, rfl⟩
    | some r =>
      by_cases ht : r.data.truthy = true
      · obtain ⟨w, hw⟩ := JSVal.getField_ok_of_truthy r.data "message" ht
        refine ⟨w.eqStr "node action executed successfully", ?_⟩
        simp [connectNodeEval, ht, hw]
      · refine ⟨false, ?_⟩
        simp [connectNodeEval, ht]
  · intro resp
    cases resp with
    | none => exact ⟨false, rfl⟩
    | some r => exact ⟨r.data.truthy, rfl⟩
  · intro resp h
    simp [dailyCheckInRun, h]
  · exact ⟨some ⟨200, JSVal.obj []⟩, rfl⟩
  · exact ⟨some ⟨200, JSVal.obj []⟩, rfl⟩

/-- Witness for the amended C5 theorem: `registerWallet` yields a
boolean on a failed call, and `dailyCheckIn` converts the TypeError
raised on a 405 body with no message text into false. -/
theorem walletOps_throw_behavior_witness :
    (∃ b, registerWalletEval none = Except.ok b) ∧
    dailyCheckInRun (some ⟨200, JSVal.obj [("statusCode", JSVal.num 405)]⟩) =
      false :=
  ⟨walletOps_throw_behavior.1 none,
   walletOps_throw_behavior.2.2.2.2.1 _ rfl⟩

/-- Claim C6: `dailyCheckIn` reports success for a delivered truthy
body: when the body carries `statusCode === 405` and a string message
(from which the cooldown text is pattern-matched for the log line) it
returns true, and when the 405 test fails it returns true because a
body is present; it returns false exactly when no truthy body is
delivered or an internal error is thrown (and caught). -/
theorem dailyCheckIn_contract (resp : Option HttpResponse) :
    (∀ r, resp = some r → r.data.truthy = true →
      ((∀ sc, r.data.getField "statusCode" = .ok sc →
          (sc.truthy && sc.eqNum 405) = false →
          dailyCheckInRun resp = true) ∧
       (∀ s, r.data.getField "statusCode" = .ok (JSVal.num 405) →
          r.data.getField "message" = .ok (JSVal.str s) →
          dailyCheckInRun resp = true))) ∧
    (dailyCheckInRun resp = false ↔
      resp = none ∨ (∃ r, resp = some r ∧ r.data.truthy = false) ∨
        dailyCheckInEval resp = .error ()) := by
  cases resp with
  | none =>
    constructor
    · intro r h
      exact Option.noConfusion h
    · simp [dailyCheckInRun, dailyCheckInEval]
  | some r =>
    constructor
    · intro r2 hr2 ht
      injection hr2 with hr2
      subst hr2
      constructor
      · intro sc hsc hcond
        simp [dailyCheckInRun, dailyCheckInEval, ht, hsc, hcond]
      · intro s hsc hmsg
        have hcond :
            ((JSVal.num 405).truthy && (JSVal.num 405).eqNum 405) = true :=
          rfl
        simp [dailyCheckInRun, dailyCheckInEval, ht, hsc, hmsg, hcond]
    · by_cases ht : r.data.truthy = true
      · cases hsc : r.data.getField "statusCode" with
        | error e =>
          cases e
          simp [dailyCheckInRun, dailyCheckInEval, ht, hsc]
        | ok sc =>
          by_cases hcond : (sc.truthy && sc.eqNum 405) = true
          · cases hmsg : r.data.getField "message" with
            | error e =>
              cases e
              simp [dailyCheckInRun, dailyCheckInEval, ht, hsc, hcond,
                hmsg]
            | ok m =>
              cases m with
              | str s =>
                simp [dailyCheckInRun, dailyCheckInEval, ht, hsc, hcond,
                  hmsg]
              | null =>
                simp [dailyCheckInRun, dailyCheckInEval, ht, hsc, hcond,
                  hmsg]
              | undefined =>
                simp [dailyCheckInRun, dailyCheckInEval, ht, hsc, hcond,
                  hmsg]
              | bool b =>
                simp [dailyCheckInRun, dailyCheckInEval, ht, hsc, hcond,
                  hmsg]
              | num n =>
                simp [dailyCheckInRun, dailyCheckInEval, ht, hsc, hcond,
                  hmsg]
              | obj fs =>
                simp [dailyCheckInRun, dailyCheckInEval, ht, hsc, hcond,
                  hmsg]
          · simp [dailyCheckInRun, dailyCheckInEval, ht, hsc, hcond]
      · have ht2 : r.data.truthy = false := by
          simpa using ht
        simp [dailyCheckInRun, dailyCheckInEval, ht2]

/-- Witness for C6: a truthy body without a `statusCode` field (the
non-405 path) yields success. -/
theorem dailyCheckIn_contract_witness :
    dailyCheckInRun (some ⟨200, JSVal.obj [("ok", JSVal.bool true)]⟩) =
      true :=
  ((dailyCheckIn_contract
      (some ⟨200, JSVal.obj [("ok", JSVal.bool true)]⟩)).1 _ rfl rfl).1
    JSVal.undefined rfl rfl

/-! ### Theorems about the orchestration loop -/

/-- Claim C7: in every cycle, wallet index `i` receives the proxy at
index `i mod proxies.length` (for a non-empty proxy list of non-blank
entries); with one proxy both of two wallets receive it; with two
proxies three wallets map to proxy indices 0, 1, 0; with an empty
proxy list every wallet gets no proxy. -/
theorem run_proxy_assignment :
    (∀ (proxies : List String) (i : Nat), proxies ≠ [] →
      (∀ p ∈ proxies, p ≠ "") →
      selectProxy proxies i = proxies.get? (i % proxies.length)) ∧
    (∀ i, selectProxy [] i = none) ∧
    (∀ p : String, p ≠ "" →
      selectProxy [p] 0 = some p ∧ selectProxy [p] 1 = some p) ∧
    (∀ p q : String, p ≠ "" → q ≠ "" →
      selectProxy [p, q] 0 = some p ∧ selectProxy [p, q] 1 = some q ∧
        selectProxy [p, q] 2 = some p) := by
  refine ⟨?_, ?_, ?_, ?_⟩
  · intro proxies i hne hblank
    unfold selectProxy
    have hlt : i % proxies.length < proxies.length :=
      Nat.mod_lt i (List.length_pos.mpr hne)
    cases hget : proxies.get? (i % proxies.length) with
    | none =>
      rfl
    | some p =>
      have hp : p ≠ "" := hblank p (List.get?_mem hget)
      simp [hp]
  · intro i
    rfl
  · intro p hp
    constructor
    · simp [selectProxy, hp]
    · simp [selectProxy, hp]
  · intro p q hp hq
    refine ⟨?_, ?_, ?_⟩
    · simp [selectProxy, hp]
    · simp [selectProxy, hq]
    · simp [selectProxy, hp]

/-- Witness for C7: one proxy serves both of two wallet indices. -/
theorem run_proxy_assignment_witness :
    selectProxy ["socks5://h"] 0 = some "socks5://h" ∧
    selectProxy ["socks5://h"] 1 = some "socks5://h" :=
  run_proxy_assignment.2.2.1 "socks5://h" (by decide)

/-- Claim C8: with an empty wallet list, `run` terminates the process
with exit status 1 (non-zero) having made no HTTP call, before
entering the orchestration loop; with a non-empty wallet list it
enters the loop, warning exactly when the proxy list is empty. -/
theorem run_empty_wallets_exit (proxies : List String)
    (wallets : List WalletEntry) :
    (wallets = [] → runStartup proxies wallets = .exitProcess 1 0) ∧
    (∀ c n, runStartup proxies wallets = .exitProcess c n →
      c ≠ 0 ∧ n = 0) ∧
    (wallets ≠ [] →
      runStartup proxies wallets = .enterLoop proxies.isEmpty) := by
  by_cases hw : wallets.length = 0
  · have hwe : wallets = [] := List.length_eq_zero.mp hw
    refine ⟨fun _ => ?_, fun c n h => ?_, fun hne => absurd hwe hne⟩
    · simp [runStartup, runSetup, hw]
    · simp [runStartup, runSetup, hw] at h
      obtain ⟨hc, hn⟩ := h
      omega
  · refine ⟨fun he => ?_, fun c n h => ?_, fun _ => ?_⟩
    · rw [he] at hw
      exact absurd rfl hw
    · simp [runStartup, runSetup, hw] at h
    · simp [runStartup, runSetup, hw]

/-- Witness for C8: no wallets configured means exit code 1 with zero
HTTP calls made; one wallet and no proxies means the loop is entered
with the no-proxy warning. -/
theorem run_empty_wallets_exit_witness :
    runStartup ["socks5://h"] [] = .exitProcess 1 0 ∧
    runStartup [] [⟨"0xabc", some "0xkey"⟩] =
      .enterLoop ([] : List String).isEmpty :=
  ⟨(run_empty_wallets_exit ["socks5://h"] []).1 rfl,
   (run_empty_wallets_exit [] [⟨"0xabc", some "0xkey"⟩]).2.2 (by simp)⟩

/-- Claim C9: per wallet and cycle, the steps run strictly in the order
daily check-in, node-status check, stop-node only when the status
check returned true, connect-node unconditionally, points check; and
no result other than that of `checkNodeStatus` influences which steps
run. -/
theorem processWallet_order (f g : Step → Bool) :
    (processWalletSteps f =
      if f Step.checkNodeStatus then
        [Step.dailyCheckIn, Step.checkNodeStatus, Step.stopNode,
         Step.connectNode, Step.checkNodePoints]
      else
        [Step.dailyCheckIn, Step.checkNodeStatus, Step.connectNode,
         Step.checkNodePoints]) ∧
    (f Step.checkNodeStatus = g Step.checkNodeStatus →
      processWalletSteps f = processWalletSteps g) := by
  constructor
  · by_cases h : f Step.checkNodeStatus <;> simp [processWalletSteps, h]
  · intro h
    simp [processWalletSteps, h]

/-- Witness for C9: two result assignments that agree on the
node-status check produce the same step sequence. -/
theorem processWallet_order_witness :
    processWalletSteps (fun _ => true) =
      processWalletSteps (fun s => !(s == Step.stopNode)) :=
  (processWallet_order (fun _ => true)
    (fun s => !(s == Step.stopNode))).2 rfl

/-- Claim C10: constructing a `LayerEdgeConnection` with a null or
absent (or empty) private key does not fail: it selects the freshly
created random wallet, and the signed message templates of every
subsequent operation embed the address of that random wallet. -/
theorem constructor_random_wallet (walletFromKey : String → EthWallet)
    (freshWallet : EthWallet) (proxy : Option String) (refCode : String)
    (ts : Nat) :
    (mkConnection walletFromKey freshWallet proxy none refCode).wallet =
      freshWallet ∧
    (mkConnection walletFromKey freshWallet proxy (some "")
        refCode).wallet = freshWallet ∧
    connectNodeMessage
        (mkConnection walletFromKey freshWallet proxy none refCode).wallet
        ts =
      "Node activation request for " ++ freshWallet.address ++ " at " ++
        toString ts ∧
    stopNodeMessage
        (mkConnection walletFromKey freshWallet proxy none refCode).wallet
        ts =
      "Node deactivation request for " ++ freshWallet.address ++ " at " ++
        toString ts ∧
    dailyCheckInMessage
        (mkConnection walletFromKey freshWallet proxy none refCode).wallet
        ts =
      "I am claiming my daily node point for " ++ freshWallet.address ++
        " at " ++ toString ts :=
  ⟨rfl, rfl, rfl, rfl, rfl⟩

end LayerEdge
